import Mathlib

/-!
Verification of the Catalog & Execution State subsystem of `Dashboard.py`.

The Python source is shallowly embedded: pure list/string manipulations become
Lean functions on `List String` / `String`; filesystem reads become explicit
data passed in (`DirListing` for one `iterdir` call, `List FsNode` for a
directory subtree, `String → Bool` predicates for per-path `exists`/`is_file`
checks); the JSON configuration document becomes an association list of
`JValue`s; code that can raise an uncaught Python exception returns `Except`.
-/

namespace Dashboard

/-! ## Python primitives -/

/-- Python list slicing `l[:n]` with an `int` bound `n`: a negative bound counts
from the end (clamped at zero), a non-negative bound takes a prefix. -/
def pySliceTo (n : Int) (l : List α) : List α :=
  if n < 0 then l.take (l.length - n.natAbs) else l.take n.toNat

/-- Python `str.lower()` (ASCII model, which also matches Lean's
`Char.toLower`): lowercase every character. -/
def pyLower (s : String) : String :=
  String.mk (s.toList.map Char.toLower)

/-- Python `str.strip()` with no argument: drop leading and trailing
whitespace. -/
def pyStrip (s : String) : String :=
  String.mk (((s.toList.dropWhile Char.isWhitespace).reverse.dropWhile
    Char.isWhitespace).reverse)

/-- Accumulator loop for `pySplitWhitespace`: `acc` holds the current token's
characters in reverse. -/
def splitWsAux : List Char → List Char → List String
  | [], acc => if acc.isEmpty then [] else [String.mk acc.reverse]
  | c :: cs, acc =>
      if c.isWhitespace then
        if acc.isEmpty then splitWsAux cs []
        else String.mk acc.reverse :: splitWsAux cs []
      else splitWsAux cs (c :: acc)

/-- Python `str.split()` (no separator): split on whitespace runs, dropping
empty tokens. Models `raw.split()` in `run_script`'s shlex fallback. -/
def pySplitWhitespace (s : String) : List String :=
  splitWsAux s.toList []

/-- Python `sub in s` substring membership on strings. -/
def strContains (s sub : String) : Bool :=
  decide (sub.toList <:+: s.toList)

/-- Python `s.endswith(t)`. -/
def strEndsWith (s t : String) : Bool :=
  decide (t.toList <:+ s.toList)

/-- Python `s.startswith(t)`. -/
def strStartsWith (s t : String) : Bool :=
  decide (t.toList <+: s.toList)

/-- Python `pathlib.PurePath.name` for a POSIX-style path string: the final
path component (everything after the last separator). -/
def pathName (p : String) : String :=
  String.mk ((p.toList.reverse.takeWhile (fun c => c != '/')).reverse)

/-- Python `pathlib.PurePath.suffix` of a file name: `name[i:]` for the last
dot position `i` when `0 < i < len(name) - 1`, else the empty string. -/
def pySuffix (name : String) : String :=
  let cs := name.toList
  if '.' ∈ cs then
    let ext := (cs.reverse.takeWhile (fun c => c != '.')).reverse
    if ext.length + 1 < cs.length && !ext.isEmpty then String.mk ('.' :: ext) else ""
  else ""

/-- Lexicographic code-point comparison of character lists: Python's `<=` on
strings. -/
def charListLe : List Char → List Char → Bool
  | [], _ => true
  | _ :: _, [] => false
  | a :: as, b :: bs =>
      if a.toNat < b.toNat then true
      else if b.toNat < a.toNat then false
      else charListLe as bs

/-- Python's `s <= t` on strings (lexicographic by code point). -/
def pyStrLe (s t : String) : Bool :=
  charListLe s.toList t.toList

/-- Stable insertion of `a` into `l` in front of the first element whose key is
not smaller: together with `sortByKey` this models Python's stable
`sorted(l, key=key)` for string keys. -/
def insertByKey (key : α → String) (a : α) : List α → List α
  | [] => [a]
  | b :: bs => if pyStrLe (key a) (key b) then a :: b :: bs else b :: insertByKey key a bs

/-- Python `sorted(l, key=key)` for a string-valued key function, as a stable
insertion sort. Python's sort is stable, and a stable sort by a total preorder
key is extensionally unique, so this is the same function. -/
def sortByKey (key : α → String) : List α → List α
  | [] => []
  | a :: as => insertByKey key a (sortByKey key as)

/-! ## StateStore: recent and favorite lists (`Dashboard.py` lines 111-164)

The state document `{"recent": [...], "favorites": [...]}` is embedded as
`StateDoc`. `add_recent`, `toggle_favorite` and `is_favorite` in the source
load the state, transform these lists and save; the embedding is the list
transformation itself, with the script path already in its `resolve()`d string
form (the source applies `str(script_path.resolve())` uniformly before every
list operation). -/

/-- State document: `{"recent": [...], "favorites": [...]}`. -/
structure StateDoc where
  recent : List String
  favorites : List String
  deriving Repr, DecidableEq

/-- Embedding of `add_recent` (`Dashboard.py` lines 137-143) acting on the
`recent` list: drop every occurrence of `p`, insert `p` at the front, slice to
`limit` (`int(cfg.get("recent_limit", 15))`). -/
def add_recent (limit : Int) (p : String) (recent : List String) : List String :=
  pySliceTo limit (p :: recent.filter (fun x => x != p))

/-- Folding `add_recent` over a sequence of runs, oldest first. -/
def add_recent_all (limit : Int) (ps : List String) (recent : List String) : List String :=
  ps.foldl (fun acc q => add_recent limit q acc) recent

/-- Embedding of `toggle_favorite` (`Dashboard.py` lines 146-159) acting on the
`favorites` list: returns the boolean result together with the new list. -/
def toggle_favorite (p : String) (favs : List String) : Bool × List String :=
  if p ∈ favs then (false, favs.filter (fun x => x != p))
  else (true, favs ++ [p])

/-- Embedding of `is_favorite` (`Dashboard.py` lines 162-164): membership of the
resolved path in the stored favorites. -/
def is_favorite (p : String) (favs : List String) : Bool :=
  favs.contains p

/-- Embedding of `is_python_file` (`Dashboard.py` lines 34-35). The
`p.is_file()` filesystem check is the parameter `isFile`; the suffix and name
checks are computed from the path string. -/
def is_python_file (isFile : String → Bool) (p : String) : Bool :=
  isFile p && pyLower (pySuffix (pathName p)) == ".py"
    && !(strStartsWith (pathName p) "__")

/-- Embedding of `get_recent_scripts` (`Dashboard.py` lines 335-342): keep the
stored `recent` entries that still exist and are python files, truncate to
`recent_limit`. The function only reads the state (`load_state`, never
`save_state`), so the state component of the result is the input state. -/
def get_recent_scripts (fsExists isFile : String → Bool) (limit : Int)
    (st : StateDoc) : List String × StateDoc :=
  (pySliceTo limit (st.recent.filter (fun p => fsExists p && is_python_file isFile p)), st)

/-! ## ConfigStore (`Dashboard.py` lines 48-105) -/

/-- JSON values, as produced by `json.loads`. -/
inductive JValue where
  | jstr (s : String)
  | jint (n : Int)
  | jbool (b : Bool)
  | jlist (xs : List JValue)
  | jdict (kvs : List (String × JValue))
  deriving Repr

/-- First-occurrence lookup in an association list (a parsed JSON object has
unique keys, and Python dict access reads that unique binding). -/
def lookupKey (d : List (String × JValue)) (k : String) : Option JValue :=
  match d with
  | [] => none
  | (k', v) :: rest => if k' = k then some v else lookupKey rest k

/-- Python `d[k] = v` on a dict: overwrite the binding in place if the key is
present, otherwise append it at the end. -/
def setKey (d : List (String × JValue)) (k : String) (v : JValue) :
    List (String × JValue) :=
  match d with
  | [] => [(k, v)]
  | (k', v') :: rest => if k' = k then (k', v) :: rest else (k', v') :: setKey rest k v

/-- Python `d.setdefault(k, v)`: insert `(k, v)` at the end only when `k` is
absent. -/
def setdefaultKey (d : List (String × JValue)) (k : String) (v : JValue) :
    List (String × JValue) :=
  if (lookupKey d k).isSome then d else d ++ [(k, v)]

/-- Embedding of `default_config` (`Dashboard.py` lines 48-71). -/
def default_config (base_dir : String) : List (String × JValue) :=
  [ ("app_name", .jstr "Dashboard de Proyectos"),
    ("base_dir", .jstr base_dir),
    ("units", .jdict [("1", .jstr "Unidad 1"), ("2", .jstr "Unidad 2")]),
    ("show_hidden_folders", .jbool false),
    ("preferred_editor", .jstr "code -n"),
    ("log_file", .jstr "dashboard.log"),
    ("confirm_before_run", .jbool true),
    ("code_preview_lines", .jint 200),
    ("ignore_dirs", .jlist [.jstr ".venv", .jstr "venv", .jstr "__pycache__",
      .jstr ".git", .jstr ".pytest_cache", .jstr ".mypy_cache", .jstr ".idea",
      .jstr ".vscode"]),
    ("recent_limit", .jint 15),
    ("favorites_enabled", .jbool true),
    ("ask_args_before_run", .jbool true),
    ("open_unit_folder_shortcut", .jbool true) ]

/-- Uncaught Python exceptions that `load_or_create_config` can let escape:
the dict-operation errors of lines 91-97 on non-object documents, and the
`OSError` of the unguarded `config_path.write_text` calls at lines 80 and 87
(e.g. read-only directory or full disk). -/
inductive PyError where
  | typeError
  | attributeError
  | osError
  deriving Repr, DecidableEq

/-- On-disk condition of the configuration document when `load_or_create_config`
runs: the file is absent, present but unreadable (`read_text` raises), present
but not parsable as JSON (`json.loads` raises), or parses to a JSON value. -/
inductive DiskCond where
  | absent
  | unreadable
  | malformed
  | parsed (v : JValue)

/-- The migration loop `for k, v in defaults.items(): cfg.setdefault(k, v)`
(`Dashboard.py` lines 96-97). -/
def applyDefaults (defaults cfg : List (String × JValue)) : List (String × JValue) :=
  defaults.foldl (fun acc kv => setdefaultKey acc kv.1 kv.2) cfg

/-- Embedding of the tail of `load_or_create_config` (`Dashboard.py` lines
90-105) for a parsed JSON object: re-resolve `base_dir` when present
(`Path(cfg["base_dir"]).expanduser().resolve()`, which raises `TypeError` on a
non-string value), then `setdefault` every key of
`default_config(Path(cfg.get("base_dir", script_dir)))` in template order.
`resolve` abstracts `str(Path(s).expanduser().resolve())`. -/
def migrate_config (resolve : String → String) (script_dir : String)
    (cfg : List (String × JValue)) : Except PyError (List (String × JValue)) :=
  match lookupKey cfg "base_dir" with
  | some (.jstr s) =>
      .ok (applyDefaults (default_config (resolve s))
        (setKey cfg "base_dir" (.jstr (resolve s))))
  | some _ => .error .typeError
  | none => .ok (applyDefaults (default_config script_dir) cfg)

/-- Embedding of `load_or_create_config` (`Dashboard.py` lines 74-105). An
absent, unreadable or unparsable document is replaced by the defaults, which
are then written back by the `config_path.write_text` calls at lines 80
(absent) and 87 (`except` branch) — both UNGUARDED, so when that write fails
(`writeOk = false`, e.g. read-only directory or full disk) the `OSError`
propagates to the caller; only when it succeeds are the defaults returned. The
`try`/`except` covers exactly `read_text` and `json.loads`. A document that
parses to a non-object reaches the unguarded dict operations of lines 91-97
and raises: `"base_dir" in cfg` is a `TypeError` for numbers and booleans; for
strings and lists the membership test succeeds syntactically, and then either
`cfg["base_dir"]` (line 92) or `cfg.get`/`cfg.setdefault` (lines 95-97)
raises. In the parsed-object branch the migration-time write of lines 100-103
is wrapped in `try`/`except pass`, so `writeOk` does not affect it. -/
def load_or_create_config (resolve : String → String) (script_dir : String)
    (writeOk : Bool) : DiskCond → Except PyError (List (String × JValue))
  | .absent =>
      if writeOk then .ok (default_config script_dir) else .error .osError
  | .unreadable =>
      if writeOk then .ok (default_config script_dir) else .error .osError
  | .malformed =>
      if writeOk then .ok (default_config script_dir) else .error .osError
  | .parsed (.jdict d) => migrate_config resolve script_dir d
  | .parsed (.jint _) => .error .typeError
  | .parsed (.jbool _) => .error .typeError
  | .parsed (.jstr s) =>
      if strContains s "base_dir" then .error .typeError else .error .attributeError
  | .parsed (.jlist xs) =>
      if xs.any (fun v => match v with | .jstr t => t == "base_dir" | _ => false)
      then .error .typeError else .error .attributeError

/-- Whether `load_or_create_config` returns normally (as opposed to letting a
Python exception escape). -/
def loadReturns (resolve : String → String) (script_dir : String)
    (writeOk : Bool) (cond : DiskCond) : Bool :=
  match load_or_create_config resolve script_dir writeOk cond with
  | .ok _ => true
  | .error _ => false

/-- The binding of key `k` in the document `load_or_create_config` returns
(`none` when the load raises or the key is absent). -/
def loadedLookup (resolve : String → String) (script_dir : String)
    (writeOk : Bool) (cond : DiskCond) (k : String) : Option JValue :=
  match load_or_create_config resolve script_dir writeOk cond with
  | .ok d => lookupKey d k
  | .error _ => none

/-- Pure model of `str(Path(p).expanduser().resolve())` in a symlink-free POSIX
session with current working directory `cwd`, for paths containing no `~`, `.`
or `..` components: an absolute path is returned unchanged, a relative path is
joined onto `cwd`. Used only to instantiate the abstract `resolve` parameter at
concrete inputs. -/
def resolveModel (cwd : String) (p : String) : String :=
  if strStartsWith p "/" then p else cwd ++ "/" ++ p

/-! ## Catalog: directory listings (`Dashboard.py` lines 285-304) -/

/-- One entry of `Path.iterdir()` with its `is_dir`/`is_file` answers. -/
structure DirEntry where
  name : String
  isDir : Bool
  isFile : Bool
  deriving Repr, DecidableEq

/-- Outcome of a `Path.iterdir()` call: the listing, or one of the two
exceptions that `list_subfolders`/`list_scripts` catch. -/
inductive DirListing where
  | fileNotFound
  | permissionDenied
  | entries (es : List DirEntry)

/-- Embedding of `list_subfolders` (`Dashboard.py` lines 285-296): directories,
dotfile-named ones dropped unless `show_hidden`, sorted by lowercased name;
`FileNotFoundError`/`PermissionError` yield `[]`. -/
def list_subfolders (show_hidden : Bool) (l : DirListing) : List String :=
  match l with
  | .fileNotFound => []
  | .permissionDenied => []
  | .entries es =>
      sortByKey (fun n => pyLower n)
        ((es.filter (fun e =>
          e.isDir && (show_hidden || !(strStartsWith e.name ".")))).map
          (fun e => e.name))

/-- Embedding of `list_scripts` (`Dashboard.py` lines 299-304): entries passing
`is_python_file`, sorted by lowercased name; the two caught errors yield `[]`. -/
def list_scripts (l : DirListing) : List String :=
  match l with
  | .fileNotFound => []
  | .permissionDenied => []
  | .entries es =>
      sortByKey (fun n => pyLower n)
        ((es.filter (fun e =>
          e.isFile && pyLower (pySuffix e.name) == ".py"
            && !(strStartsWith e.name "__"))).map
          (fun e => e.name))

/-! ## SearchIndex (`Dashboard.py` lines 307-329) -/

/-- A filesystem subtree: the unit directory's contents are a `List FsNode`. -/
inductive FsNode where
  | file (name : String)
  | dir (name : String) (children : List FsNode)
  deriving Repr

/-- One path produced by walking the subtree: its full segment list (like
`Path.parts`, so segments of the unit path itself included), its final name,
and whether it is a regular file. -/
structure FsEntry where
  parts : List String
  name : String
  isFile : Bool
  deriving Repr, DecidableEq

mutual
/-- All descendants of one node, each with full `parts` extending `pfx`. -/
def nodeEntries (pfx : List String) : FsNode → List FsEntry
  | .file n => [⟨pfx ++ [n], n, true⟩]
  | .dir n cs => ⟨pfx ++ [n], n, false⟩ :: forestEntries (pfx ++ [n]) cs

/-- All descendants of a list of sibling nodes. -/
def forestEntries (pfx : List String) : List FsNode → List FsEntry
  | [] => []
  | t :: ts => nodeEntries pfx t ++ forestEntries pfx ts
end

/-- Embedding of `search_scripts` (`Dashboard.py` lines 307-329). The walk
`unit_path.rglob("*.py")` yields every descendant whose name matches `*.py`
(`pathlib` glob does not special-case hidden names); the filters then mirror
lines 317-325: `is_file`, name not starting `__`, no component of `p.parts` in
`ignore_dirs`, lowered-stripped query a substring of the lowercased name.
Results are the matching paths sorted by lowercased name. -/
def search_scripts (ignore_dirs : List String) (unitParts : List String)
    (forest : List FsNode) (query : String) : List (List String) :=
  let q := pyStrip (pyLower query)
  let hits := (forestEntries unitParts forest).filter (fun e =>
    strEndsWith e.name ".py" && e.isFile && !(strStartsWith e.name "__")
      && !(e.parts.any (fun part => ignore_dirs.contains part))
      && strContains (pyLower e.name) q)
  (sortByKey (fun e => pyLower e.name) hits).map (fun e => e.parts)

/-- The entries `search_scripts` would return for a query that matches every
name: all `*.py` regular files, not `__`-prefixed, outside `ignore_dirs`. -/
def eligible_scripts (ignore_dirs : List String) (unitParts : List String)
    (forest : List FsNode) : List FsEntry :=
  (forestEntries unitParts forest).filter (fun e =>
    strEndsWith e.name ".py" && e.isFile && !(strStartsWith e.name "__")
      && !(e.parts.any (fun part => ignore_dirs.contains part)))

/-! ## Launcher (`Dashboard.py` lines 221-257) -/

/-- Configuration flags consumed by `run_script`, already extracted from the
configuration document (`cfg.get("confirm_before_run", True)` etc.). -/
structure RunCfg where
  confirm_before_run : Bool
  ask_args_before_run : Bool
  recent_limit : Int
  deriving Repr, DecidableEq

/-- The interactive and process environment of one `run_script` call: the
confirmation answer, the raw argument string, the result of `shlex.split`
(`none` models it raising), and the subprocess outcome as a function of the
final argument list (`none` models `subprocess.run` raising). -/
structure RunEnv where
  confirmAnswer : String
  rawArgs : String
  shlexResult : Option (List String)
  execResult : List String → Option Int

/-- Terminal outcome of one `run_script` call. -/
inductive RunOutcome where
  | cancelled
  | finished (returncode : Int)
  | execFailed
  deriving Repr, DecidableEq

/-- Embedding of `run_script` (`Dashboard.py` lines 221-257). When confirmation
is on and the stripped, lowered answer is not `"s"`, the function returns
before touching any state. Otherwise the argument string is tokenized (shlex,
falling back to whitespace splitting), the run is recorded via `add_recent`,
and the subprocess outcome is reported. -/
def run_script (cfg : RunCfg) (env : RunEnv) (script_path : String)
    (st : StateDoc) : RunOutcome × StateDoc :=
  if cfg.confirm_before_run && !(pyLower (pyStrip env.confirmAnswer) == "s") then
    (.cancelled, st)
  else
    let args : List String :=
      if cfg.ask_args_before_run then
        if pyStrip env.rawArgs != "" then
          match env.shlexResult with
          | some toks => toks
          | none => pySplitWhitespace (pyStrip env.rawArgs)
        else []
      else []
    let st1 : StateDoc := { st with recent := add_recent cfg.recent_limit script_path st.recent }
    match env.execResult args with
    | some code => (.finished code, st1)
    | none => (.execFailed, st1)

/-! ## Lemmas about `add_recent` -/

theorem pySliceTo_of_pos {n : Int} (hn : 0 < n) (l : List α) :
    pySliceTo n l = l.take n.toNat := by
  simp [pySliceTo, not_lt.2 hn.le]

theorem pySliceTo_length_le {n : Int} (hn : 0 < n) (l : List α) :
    (pySliceTo n l).length ≤ n.toNat := by
  rw [pySliceTo_of_pos hn]
  exact List.length_take_le n.toNat l

theorem add_recent_eq {L : Int} (hL : 0 < L) (p : String) (r : List String) :
    add_recent L p r = p :: (r.filter (fun x => x != p)).take (L.toNat - 1) := by
  have h1 : L.toNat = (L.toNat - 1) + 1 := by omega
  rw [add_recent, pySliceTo_of_pos hL]
  conv_lhs => rw [h1]
  rw [List.take_succ_cons]

theorem not_mem_filter_ne (p : String) (r : List String) :
    p ∉ r.filter (fun x => x != p) := by
  intro hp
  simp [List.mem_filter] at hp

theorem filter_ne_eq_self {p : String} {l : List String} (h : p ∉ l) :
    l.filter (fun x => x != p) = l := by
  refine List.filter_eq_self.2 ?_
  intro x hx
  simp only [bne_iff_ne, ne_eq, decide_eq_true_eq]
  intro hxp
  exact h (hxp ▸ hx)

theorem add_recent_all_concat (L : Int) (qs : List String) (q : String)
    (st : List String) :
    add_recent_all L (qs ++ [q]) st = add_recent L q (add_recent_all L qs st) := by
  simp [add_recent_all, List.foldl_append]

/-- The reversed tail of the call sequence, truncated to the limit, is an
initial segment of the recent list produced by folding `add_recent`. -/
theorem add_recent_all_take_le (L : Int) (hL : 0 < L) :
    ∀ ps : List String, ps.Nodup → ∀ st : List String,
      ps.reverse.take L.toNat <+: add_recent_all L ps st := by
  intro ps
  induction ps using List.reverseRecOn with
  | nil =>
    intro _ st
    simp
  | append_singleton qs q ih =>
    intro hnd st
    simp only [List.nodup_append, List.nodup_cons, List.not_mem_nil, not_false_iff,
      List.nodup_nil, and_true, List.disjoint_singleton] at hnd
    have hq : q ∉ qs := hnd.2.2
    have hqs : qs.Nodup := hnd.1
    have hA := ih hqs st
    set A := add_recent_all L qs st with hAdef
    rw [add_recent_all_concat, add_recent_eq hL]
    have hrev : (qs ++ [q]).reverse = q :: qs.reverse := by simp
    rw [hrev]
    have hM : L.toNat = (L.toNat - 1) + 1 := by omega
    rw [hM, List.take_succ_cons]
    refine (List.prefix_cons_inj q).mpr ?_
    -- the truncated reversed calls survive the filter untouched
    have hXfil : (qs.reverse.take L.toNat).filter (fun x => x != q)
        = qs.reverse.take L.toNat := by
      refine filter_ne_eq_self ?_
      intro hmem
      have : q ∈ qs.reverse := List.IsPrefix.mem hmem (List.take_prefix _ _)
      exact hq (List.mem_reverse.mp this)
    have h2 : qs.reverse.take L.toNat <+: A.filter (fun x => x != q) := by
      have := List.IsPrefix.filter (fun x => x != q) hA
      rwa [hXfil] at this
    have h3 := List.IsPrefix.take h2 (L.toNat - 1)
    have h4 : (qs.reverse.take L.toNat).take (L.toNat - 1)
        = qs.reverse.take (L.toNat - 1) := by
      rw [List.take_take]
      congr 1
      omega
    rwa [h4] at h3

/-- After at least `recent_limit` distinct runs the recent list is exactly the
last `recent_limit` run paths, most recent first. -/
theorem add_recent_all_eq_take (L : Int) (hL : 0 < L) (ps : List String) (k : Nat)
    (hnd : ps.Nodup) (hlen : ps.length = L.toNat + k) (st : List String) :
    add_recent_all L ps st = ps.reverse.take L.toNat := by
  have hpre := add_recent_all_take_le L hL ps hnd st
  obtain ⟨qs, q, rfl⟩ : ∃ qs q, ps = qs ++ [q] := by
    rcases List.eq_nil_or_concat ps with h | ⟨qs, q, h⟩
    · exfalso
      subst h
      rw [List.length_nil] at hlen
      omega
    · exact ⟨qs, q, by simpa [List.concat_eq_append] using h⟩
  have hlenle : (add_recent_all L (qs ++ [q]) st).length ≤ L.toNat := by
    rw [add_recent_all_concat, add_recent]
    exact pySliceTo_length_le hL _
  have hXlen : ((qs ++ [q]).reverse.take L.toNat).length = L.toNat := by
    rw [List.length_take]
    simp only [List.length_reverse]
    omega
  have hlle := hpre.length_le
  exact (hpre.eq_of_length (by omega)).symm

/-- Claim C1: with a positive `recent_limit` `L`, `add_recent(p, L)` from any
prior state yields a recent list whose head is `p`, in which `p` occurs exactly
once (a prior occurrence is moved, not duplicated), of length at most `L`;
calling it twice in a row with the same path equals calling it once; and
`L + k` calls with pairwise-distinct paths from any prior state leave exactly
the last `L` called paths, most recent first. -/
theorem claim_C1_add_recent (L : Int) (p : String) (st : List String)
    (ps : List String) (k : Nat) (st0 : List String)
    (hL : 0 < L) (hnd : ps.Nodup) (hlen : ps.length = L.toNat + k) :
    (add_recent L p st).head? = some p
    ∧ (add_recent L p st).count p = 1
    ∧ (add_recent L p st).length ≤ L.toNat
    ∧ add_recent L p (add_recent L p st) = add_recent L p st
    ∧ add_recent_all L ps st0 = ps.reverse.take L.toNat := by
  have hf : p ∉ st.filter (fun x => x != p) := not_mem_filter_ne p st
  refine ⟨?_, ?_, ?_, ?_, add_recent_all_eq_take L hL ps k hnd hlen st0⟩
  · rw [add_recent_eq hL]
    rfl
  · rw [add_recent_eq hL]
    have hcz : (st.filter (fun x => x != p)).count p = 0 := List.count_eq_zero.2 hf
    have hsub : ((st.filter (fun x => x != p)).take (L.toNat - 1)).Sublist
        (st.filter (fun x => x != p)) := List.take_sublist _ _
    have hcle := hsub.count_le p
    rw [List.count_cons_self]
    omega
  · rw [add_recent]
    exact pySliceTo_length_le hL _
  · rw [add_recent_eq hL (r := st)]
    rw [add_recent_eq hL]
    have htk : p ∉ (st.filter (fun x => x != p)).take (L.toNat - 1) := by
      intro hmem
      exact hf (List.IsPrefix.mem hmem (List.take_prefix _ _))
    have : ((p :: (st.filter (fun x => x != p)).take (L.toNat - 1)).filter
        (fun x => x != p)) = (st.filter (fun x => x != p)).take (L.toNat - 1) := by
      rw [List.filter_cons]
      simp only [bne_self_eq_false, Bool.false_eq_true, if_false]
      exact filter_ne_eq_self htk
    rw [this, List.take_take, Nat.min_self]

/-- Witness for claim C1 at `L = 2`. -/
theorem claim_C1_add_recent_witness :
    (add_recent 2 "a" ["b", "a"]).head? = some "a"
    ∧ (add_recent 2 "a" ["b", "a"]).count "a" = 1
    ∧ (add_recent 2 "a" ["b", "a"]).length ≤ (2 : Int).toNat
    ∧ add_recent 2 "a" (add_recent 2 "a" ["b", "a"]) = add_recent 2 "a" ["b", "a"]
    ∧ add_recent_all 2 ["x", "y", "z"] ["a", "q"] = (["x", "y", "z"].reverse).take (2 : Int).toNat :=
  claim_C1_add_recent 2 "a" ["b", "a"] ["x", "y", "z"] 1 ["a", "q"]
    (by decide) (by decide) (by decide)

/-- Claim C2: `toggle_favorite` appends and returns `true` on an absent path,
removes and returns `false` on a present path, two successive toggles from a
non-favorite state return `true` then `false`, and `is_favorite` agrees with
the value each toggle just returned. -/
theorem claim_C2_toggle_favorite (p : String) (favs favs' : List String)
    (h : p ∉ favs) (h' : p ∈ favs') :
    toggle_favorite p favs = (true, favs ++ [p])
    ∧ is_favorite p (toggle_favorite p favs).2 = (toggle_favorite p favs).1
    ∧ (toggle_favorite p (toggle_favorite p favs).2).1 = false
    ∧ p ∉ (toggle_favorite p (toggle_favorite p favs).2).2
    ∧ is_favorite p (toggle_favorite p (toggle_favorite p favs).2).2
        = (toggle_favorite p (toggle_favorite p favs).2).1
    ∧ (toggle_favorite p favs').1 = false
    ∧ p ∉ (toggle_favorite p favs').2
    ∧ is_favorite p (toggle_favorite p favs').2 = (toggle_favorite p favs').1 := by
  have hmem : p ∈ favs ++ [p] := by simp
  have h1 : toggle_favorite p favs = (true, favs ++ [p]) := by
    simp [toggle_favorite, h]
  have h2 : toggle_favorite p (favs ++ [p])
      = (false, (favs ++ [p]).filter (fun x => x != p)) := by
    simp [toggle_favorite, hmem]
  have h3 : toggle_favorite p favs' = (false, favs'.filter (fun x => x != p)) := by
    simp [toggle_favorite, h']
  refine ⟨h1, ?_, ?_, ?_, ?_, ?_, ?_, ?_⟩
  · rw [h1]
    simp [is_favorite, hmem]
  · rw [h1, h2]
  · rw [h1, h2]
    exact not_mem_filter_ne p _
  · rw [h1, h2]
    simp [is_favorite]
  · rw [h3]
  · rw [h3]
    exact not_mem_filter_ne p _
  · rw [h3]
    simp [is_favorite]

/-- Witness for claim C2 at `p = "a"`, starting from no favorites and from
favorites `["a"]`. -/
theorem claim_C2_toggle_favorite_witness :
    toggle_favorite "a" [] = (true, [] ++ ["a"])
    ∧ is_favorite "a" (toggle_favorite "a" []).2 = (toggle_favorite "a" []).1
    ∧ (toggle_favorite "a" (toggle_favorite "a" []).2).1 = false
    ∧ "a" ∉ (toggle_favorite "a" (toggle_favorite "a" []).2).2
    ∧ is_favorite "a" (toggle_favorite "a" (toggle_favorite "a" []).2).2
        = (toggle_favorite "a" (toggle_favorite "a" []).2).1
    ∧ (toggle_favorite "a" ["a"]).1 = false
    ∧ "a" ∉ (toggle_favorite "a" ["a"]).2
    ∧ is_favorite "a" (toggle_favorite "a" ["a"]).2 = (toggle_favorite "a" ["a"]).1 :=
  claim_C2_toggle_favorite "a" [] ["a"] (by decide) (by decide)

/-- Counterexample to claim C6 as stated: with an absent configuration
document and a failing write-back (read-only directory or full disk), the
unguarded `config_path.write_text` of line 80 raises `OSError` straight
through `load_or_create_config` to its caller — the load does not return the
defaults as a normal result. -/
theorem claim_C6_counterexample :
    load_or_create_config (fun s => s) "/app" false DiskCond.absent
      = Except.error PyError.osError := rfl

/-- Claim C6 as amended: for each of the three failing on-disk conditions of
the configuration document — absent file, unreadable file, unparsable JSON —
`load_or_create_config` synthesizes the default configuration and attempts to
persist it; when that write succeeds the defaults are returned as a normal
result, but when it fails the exception of the unguarded `write_text`
(lines 80 and 87) propagates to the caller. Only the migration-time write of
lines 100-103 is swallowed. -/
theorem claim_C6_amended (resolve : String → String) (script_dir : String)
    (cond : DiskCond)
    (h : cond = DiskCond.absent ∨ cond = DiskCond.unreadable
      ∨ cond = DiskCond.malformed) :
    load_or_create_config resolve script_dir true cond
      = Except.ok (default_config script_dir)
    ∧ load_or_create_config resolve script_dir false cond
      = Except.error PyError.osError := by
  rcases h with rfl | rfl | rfl <;> exact ⟨rfl, rfl⟩

/-- Witness for the amended claim C6 at an absent configuration file. -/
theorem claim_C6_amended_witness :
    load_or_create_config (fun s => s) "/app" true DiskCond.absent
      = Except.ok (default_config "/app")
    ∧ load_or_create_config (fun s => s) "/app" false DiskCond.absent
      = Except.error PyError.osError :=
  claim_C6_amended (fun s => s) "/app" DiskCond.absent (Or.inl rfl)

/-- Claim C7: a `run_script` call with confirmation enabled and a
non-affirmative answer (stripped, lowered answer different from `"s"`) returns
the cancelled outcome and leaves the persisted state exactly as it was. -/
theorem claim_C7_run_cancelled (cfg : RunCfg) (env : RunEnv) (script_path : String)
    (st : StateDoc) (hc : cfg.confirm_before_run = true)
    (hans : pyLower (pyStrip env.confirmAnswer) ≠ "s") :
    run_script cfg env script_path st = (RunOutcome.cancelled, st) := by
  rw [run_script]
  have hcond : (cfg.confirm_before_run && !(pyLower (pyStrip env.confirmAnswer) == "s"))
      = true := by
    rw [hc]
    simp [hans]
  rw [if_pos hcond]

/-- Witness for claim C7: answering `"n"` cancels and preserves the state. -/
theorem claim_C7_run_cancelled_witness :
    run_script ⟨true, true, 15⟩ ⟨"n", "", none, fun _ => some 0⟩ "/u/a.py"
      ⟨["x"], ["y"]⟩ = (RunOutcome.cancelled, ⟨["x"], ["y"]⟩) :=
  claim_C7_run_cancelled ⟨true, true, 15⟩ ⟨"n", "", none, fun _ => some 0⟩
    "/u/a.py" ⟨["x"], ["y"]⟩ rfl (by decide)

/-- Claim C8: on a missing or permission-denied directory, both
`list_subfolders` and `list_scripts` return the empty list (the exception is
caught, not propagated). -/
theorem claim_C8_listing_errors (show_hidden : Bool) (l l' : DirListing)
    (h : l = DirListing.fileNotFound ∨ l = DirListing.permissionDenied)
    (h' : l' = DirListing.fileNotFound ∨ l' = DirListing.permissionDenied) :
    list_subfolders show_hidden l = [] ∧ list_scripts l' = [] := by
  constructor
  · rcases h with rfl | rfl <;> rfl
  · rcases h' with rfl | rfl <;> rfl

/-- Witness for claim C8 at a missing directory and a permission-denied one. -/
theorem claim_C8_listing_errors_witness :
    list_subfolders false DirListing.fileNotFound = []
    ∧ list_scripts DirListing.permissionDenied = [] :=
  claim_C8_listing_errors false DirListing.fileNotFound DirListing.permissionDenied
    (Or.inl rfl) (Or.inr rfl)

/-- Claim C10: when the stored recent list is longer than the configured
positive limit, `get_recent_scripts` returns at most `recent_limit` entries,
which form an initial segment of the stored list as filtered by the read-time
existence check (so they are drawn from the front, in stored order), and the
stored state itself is returned unmodified. -/
theorem claim_C10_get_recent (fsExists isFile : String → Bool) (L : Int)
    (st : StateDoc) (hL : 0 < L) (hlong : L.toNat < st.recent.length) :
    (get_recent_scripts fsExists isFile L st).1.length ≤ L.toNat
    ∧ (get_recent_scripts fsExists isFile L st).1
        <+: st.recent.filter (fun p => fsExists p && is_python_file isFile p)
    ∧ (st.recent.filter (fun p => fsExists p && is_python_file isFile p)).Sublist
        st.recent
    ∧ (get_recent_scripts fsExists isFile L st).2 = st := by
  have h1 : (get_recent_scripts fsExists isFile L st).1
      = pySliceTo L (st.recent.filter (fun p => fsExists p && is_python_file isFile p)) :=
    rfl
  refine ⟨?_, ?_, List.filter_sublist _, rfl⟩
  · rw [h1]
    exact pySliceTo_length_le hL _
  · rw [h1, pySliceTo_of_pos hL]
    exact List.take_prefix _ _

/-- Witness for claim C10 with limit 1 and two stored entries. -/
theorem claim_C10_get_recent_witness :
    (get_recent_scripts (fun _ => true) (fun _ => true) 1 ⟨["a.py", "b.py"], []⟩).1.length
        ≤ (1 : Int).toNat
    ∧ (get_recent_scripts (fun _ => true) (fun _ => true) 1 ⟨["a.py", "b.py"], []⟩).1
        <+: (["a.py", "b.py"].filter
          (fun p => (fun _ => true) p && is_python_file (fun _ => true) p))
    ∧ ((["a.py", "b.py"] : List String).filter
          (fun p => (fun _ => true) p && is_python_file (fun _ => true) p)).Sublist
        ["a.py", "b.py"]
    ∧ (get_recent_scripts (fun _ => true) (fun _ => true) 1 ⟨["a.py", "b.py"], []⟩).2
        = ⟨["a.py", "b.py"], []⟩ :=
  claim_C10_get_recent (fun _ => true) (fun _ => true) 1 ⟨["a.py", "b.py"], []⟩
    (by decide) (by decide)

/-! ## Lemmas about sorting and the search walk -/

theorem mem_insertByKey (key : α → String) (a b : α) (l : List α) :
    b ∈ insertByKey key a l ↔ b = a ∨ b ∈ l := by
  induction l with
  | nil => simp [insertByKey]
  | cons c cs ih =>
    rw [insertByKey]
    by_cases h : pyStrLe (key a) (key c) = true
    · simp [h]
    · simp only [h, if_false, Bool.false_eq_true, List.mem_cons, ih]
      tauto

theorem mem_sortByKey (key : α → String) (l : List α) (a : α) :
    a ∈ sortByKey key l ↔ a ∈ l := by
  induction l with
  | nil => simp [sortByKey]
  | cons c cs ih =>
    rw [sortByKey, mem_insertByKey]
    simp [ih]

mutual
/-- Every entry the walk produces under a node extends the walk's prefix. -/
theorem nodeEntries_parts (pfx : List String) :
    (t : FsNode) → ∀ e ∈ nodeEntries pfx t, pfx <+: e.parts
  | .file n => by
      intro e he
      simp only [nodeEntries, List.mem_singleton] at he
      subst he
      exact List.prefix_append pfx [n]
  | .dir n cs => by
      intro e he
      rw [nodeEntries] at he
      rcases List.mem_cons.mp he with rfl | hmem
      · exact List.prefix_append pfx [n]
      · exact (List.prefix_append pfx [n]).trans
          (forestEntries_parts (pfx ++ [n]) cs e hmem)

/-- Every entry the walk produces under a forest extends the walk's prefix. -/
theorem forestEntries_parts (pfx : List String) :
    (ts : List FsNode) → ∀ e ∈ forestEntries pfx ts, pfx <+: e.parts
  | [] => by
      intro e he
      simp [forestEntries] at he
  | t :: ts => by
      intro e he
      rw [forestEntries] at he
      rcases List.mem_append.mp he with h1 | h2
      · exact nodeEntries_parts pfx t e h1
      · exact forestEntries_parts pfx ts e h2
end

/-- A path with a component inside `ignore_dirs` fails the search filter. -/
theorem search_cond_false_of_ignored {ignore_dirs : List String} {e : FsEntry}
    {q : String} {seg : String} (hseg : seg ∈ e.parts) (hin : seg ∈ ignore_dirs) :
    (strEndsWith e.name ".py" && e.isFile && !(strStartsWith e.name "__")
      && !(e.parts.any (fun part => ignore_dirs.contains part))
      && strContains (pyLower e.name) q) = false := by
  simp
  intro _ _ _ hall
  exact absurd hin (hall seg hseg)

/-- Claim C5: no path returned by `search_scripts` has any component whose name
lies in `ignore_dirs`; in particular nothing under an ignored directory such as
`.venv` is ever returned. -/
theorem claim_C5_search_ignores (ignore_dirs unitParts : List String)
    (forest : List FsNode) (query : String) (p : List String) (seg : String)
    (hp : p ∈ search_scripts ignore_dirs unitParts forest query)
    (hseg : seg ∈ p) :
    seg ∉ ignore_dirs := by
  simp only [search_scripts, List.mem_map] at hp
  obtain ⟨e, he, rfl⟩ := hp
  rw [mem_sortByKey] at he
  obtain ⟨-, hcond⟩ := List.mem_filter.mp he
  intro hsegmem
  have hfalse := search_cond_false_of_ignored (q := pyStrip (pyLower query)) hseg hsegmem
  rw [hcond] at hfalse
  exact absurd hfalse (by decide)

/-- Witness for claim C5: the sole result of a concrete search is `u/a.py`,
whose components avoid the ignore set `[".venv"]`. -/
theorem claim_C5_search_ignores_witness :
    "u" ∉ ([".venv"] : List String) :=
  claim_C5_search_ignores [".venv"] ["u"]
    [FsNode.file "a.py", FsNode.dir ".venv" [FsNode.file "c.py"]] "a"
    ["u", "a.py"] "u" (by decide) (by decide)

/-- Claim C9: the ignore filter tests every component of the absolute path, so
when a component of the unit path itself is in `ignore_dirs`, every candidate
is filtered out and the search returns the empty list for every query. -/
theorem claim_C9_search_ignored_ancestor (ignore_dirs unitParts : List String)
    (forest : List FsNode) (query : String) (seg : String)
    (h1 : seg ∈ unitParts) (h2 : seg ∈ ignore_dirs) :
    search_scripts ignore_dirs unitParts forest query = [] := by
  simp only [search_scripts]
  have hfil : (forestEntries unitParts forest).filter (fun e =>
      strEndsWith e.name ".py" && e.isFile && !(strStartsWith e.name "__")
        && !(e.parts.any (fun part => ignore_dirs.contains part))
        && strContains (pyLower e.name) (pyStrip (pyLower query))) = [] := by
    rw [List.filter_eq_nil_iff]
    intro e he
    have hpre := forestEntries_parts unitParts forest e he
    have hsegmem : seg ∈ e.parts := List.IsPrefix.mem h1 hpre
    rw [search_cond_false_of_ignored hsegmem h2]
    exact Bool.false_ne_true
  rw [hfil]
  rfl

/-- Witness for claim C9: a unit path living under a `.venv` ancestor yields an
empty search even though a matching script exists beneath it. -/
theorem claim_C9_search_ignored_ancestor_witness :
    search_scripts [".venv"] ["home", ".venv", "proj"] [FsNode.file "a.py"] "a" = [] :=
  claim_C9_search_ignored_ancestor [".venv"] ["home", ".venv", "proj"]
    [FsNode.file "a.py"] "a" ".venv" (by decide) (by decide)

/-- The empty query is a substring of every string. -/
theorem strContains_empty (s : String) : strContains s "" = true := by
  rw [strContains]
  simp only [decide_eq_true_eq]
  show ([] : List Char) <:+: s.toList
  exact List.nil_infix

/-- Counterexample to claim C4 as stated: on a unit containing `a.py`, a
whitespace-only query returns that script, not the empty list (the normalized
empty query is a substring of every name). -/
theorem claim_C4_counterexample :
    search_scripts [] ["u"] [FsNode.file "a.py"] " " ≠ [] := by
  decide

/-- Claim C4 as amended: for an empty or whitespace-only query (one whose
lowered, stripped form is empty), `search_scripts` returns not the empty list
but every eligible script of the unit — every non-`__` `*.py` file outside
`ignore_dirs` — sorted by lowercased name; the interactive caller is the one
that skips empty queries. -/
theorem claim_C4_amended (ignore_dirs unitParts : List String)
    (forest : List FsNode) (query : String)
    (hq : pyStrip (pyLower query) = "") :
    search_scripts ignore_dirs unitParts forest query
      = (sortByKey (fun e => pyLower e.name)
          (eligible_scripts ignore_dirs unitParts forest)).map (fun e => e.parts) := by
  have hfil : ∀ e ∈ forestEntries unitParts forest,
      (strEndsWith e.name ".py" && e.isFile && !(strStartsWith e.name "__")
        && !(e.parts.any (fun part => ignore_dirs.contains part))
        && strContains (pyLower e.name) "")
      = (strEndsWith e.name ".py" && e.isFile && !(strStartsWith e.name "__")
        && !(e.parts.any (fun part => ignore_dirs.contains part))) := by
    intro e _
    rw [strContains_empty, Bool.and_true]
  simp only [search_scripts, eligible_scripts, hq]
  rw [List.filter_congr hfil]

/-- Witness for the amended claim C4: a whitespace query on a unit with `a.py`
and an ignored `.venv/c.py` returns exactly the eligible scripts. -/
theorem claim_C4_amended_witness :
    search_scripts [".venv"] ["u"]
      [FsNode.file "a.py", FsNode.dir ".venv" [FsNode.file "c.py"]] " "
      = (sortByKey (fun e => pyLower e.name)
          (eligible_scripts [".venv"] ["u"]
            [FsNode.file "a.py", FsNode.dir ".venv" [FsNode.file "c.py"]])).map
          (fun e => e.parts) :=
  claim_C4_amended [".venv"] ["u"]
    [FsNode.file "a.py", FsNode.dir ".venv" [FsNode.file "c.py"]] " " (by decide)

/-! ## Lemmas about the configuration dictionary -/

theorem lookupKey_append_of_some {d1 : List (String × JValue)} {k : String}
    {v : JValue} (h : lookupKey d1 k = some v) (d2 : List (String × JValue)) :
    lookupKey (d1 ++ d2) k = some v := by
  induction d1 with
  | nil => exact absurd h (by simp [lookupKey])
  | cons kv rest ih =>
    obtain ⟨k1, v1⟩ := kv
    rw [lookupKey] at h
    by_cases hk : k1 = k
    · rw [if_pos hk] at h
      simp [lookupKey, hk, h]
    · rw [if_neg hk] at h
      simpa [lookupKey, hk] using ih h

theorem lookupKey_append_of_none {d1 : List (String × JValue)} {k : String}
    (h : lookupKey d1 k = none) (d2 : List (String × JValue)) :
    lookupKey (d1 ++ d2) k = lookupKey d2 k := by
  induction d1 with
  | nil => rfl
  | cons kv rest ih =>
    obtain ⟨k1, v1⟩ := kv
    rw [lookupKey] at h
    by_cases hk : k1 = k
    · rw [if_pos hk] at h
      cases h
    · rw [if_neg hk] at h
      simpa [lookupKey, hk] using ih h

theorem lookupKey_setKey_self (d : List (String × JValue)) (k : String) (v : JValue) :
    lookupKey (setKey d k v) k = some v := by
  induction d with
  | nil => simp [setKey, lookupKey]
  | cons kv rest ih =>
    obtain ⟨k1, v1⟩ := kv
    rw [setKey]
    by_cases hk : k1 = k
    · simp [hk, lookupKey]
    · simpa [lookupKey, hk] using ih

theorem lookupKey_setKey_ne (d : List (String × JValue)) {k k' : String}
    (v : JValue) (h : k' ≠ k) :
    lookupKey (setKey d k' v) k = lookupKey d k := by
  induction d with
  | nil => simp [setKey, lookupKey, h]
  | cons kv rest ih =>
    obtain ⟨k1, v1⟩ := kv
    rw [setKey]
    by_cases hk : k1 = k'
    · subst hk
      simp [lookupKey, h]
    · rw [if_neg hk, lookupKey, lookupKey]
      by_cases hk2 : k1 = k
      · rw [if_pos hk2, if_pos hk2]
      · rw [if_neg hk2, if_neg hk2]
        exact ih

theorem lookupKey_setdefaultKey_of_some {d : List (String × JValue)} {k0 : String}
    {w : JValue} (h : lookupKey d k0 = some w) (k : String) (v : JValue) :
    lookupKey (setdefaultKey d k v) k0 = some w := by
  cases hs : (lookupKey d k).isSome
  · simp only [setdefaultKey, hs, Bool.false_eq_true, if_false]
    exact lookupKey_append_of_some h _
  · simp only [setdefaultKey, hs, if_true]
    exact h

theorem lookupKey_setdefaultKey_ne {d : List (String × JValue)} {k0 k : String}
    (v : JValue) (h : k0 ≠ k) :
    lookupKey (setdefaultKey d k v) k0 = lookupKey d k0 := by
  cases hs : (lookupKey d k).isSome
  · simp only [setdefaultKey, hs, Bool.false_eq_true, if_false]
    cases hl : lookupKey d k0 with
    | some w => exact lookupKey_append_of_some hl _
    | none =>
        rw [lookupKey_append_of_none hl]
        simp [lookupKey, Ne.symm h]
  · simp only [setdefaultKey, hs, if_true]

theorem lookupKey_setdefaultKey_self_of_none {d : List (String × JValue)}
    {k : String} (h : lookupKey d k = none) (v : JValue) :
    lookupKey (setdefaultKey d k v) k = some v := by
  have hs : (lookupKey d k).isSome = false := by
    rw [h]
    rfl
  simp only [setdefaultKey, hs, Bool.false_eq_true, if_false]
  rw [lookupKey_append_of_none h]
  simp [lookupKey]

theorem lookupKey_applyDefaults_of_some (ds : List (String × JValue)) :
    ∀ d : List (String × JValue), ∀ {k : String} {w : JValue},
      lookupKey d k = some w → lookupKey (applyDefaults ds d) k = some w := by
  induction ds with
  | nil =>
    intro d k w h
    exact h
  | cons kv rest ih =>
    intro d k w h
    exact ih _ (lookupKey_setdefaultKey_of_some h kv.1 kv.2)

theorem isSome_applyDefaults_of_isSome (ds : List (String × JValue))
    (d : List (String × JValue)) {k : String}
    (h : (lookupKey d k).isSome = true) :
    (lookupKey (applyDefaults ds d) k).isSome = true := by
  cases hl : lookupKey d k with
  | none =>
      rw [hl] at h
      cases h
  | some w =>
      rw [lookupKey_applyDefaults_of_some ds d hl]
      rfl

theorem isSome_applyDefaults_of_mem (ds : List (String × JValue)) :
    ∀ d : List (String × JValue), ∀ {k : String}, k ∈ ds.map Prod.fst →
      (lookupKey (applyDefaults ds d) k).isSome = true := by
  induction ds with
  | nil =>
    intro d k h
    simp at h
  | cons kv rest ih =>
    intro d k h
    rw [List.map_cons, List.mem_cons] at h
    rcases h with h | h
    · subst h
      refine isSome_applyDefaults_of_isSome rest _ ?_
      cases hl : lookupKey d kv.1 with
      | some w => rw [lookupKey_setdefaultKey_of_some hl kv.1 kv.2]; rfl
      | none => rw [lookupKey_setdefaultKey_self_of_none hl kv.2]; rfl
    · exact ih _ h

theorem lookupKey_applyDefaults_of_none (ds : List (String × JValue)) :
    ∀ d : List (String × JValue), ∀ {k : String}, lookupKey d k = none →
      lookupKey (applyDefaults ds d) k = lookupKey ds k := by
  induction ds with
  | nil =>
    intro d k h
    exact h
  | cons kv rest ih =>
    intro d k h
    obtain ⟨k1, v1⟩ := kv
    by_cases hk : k1 = k
    · subst hk
      have h1 : lookupKey (setdefaultKey d k1 v1) k1 = some v1 :=
        lookupKey_setdefaultKey_self_of_none h v1
      have h2 := lookupKey_applyDefaults_of_some rest _ h1
      rw [show lookupKey ((k1, v1) :: rest) k1 = some v1 by simp [lookupKey]]
      exact h2
    · have h1 : lookupKey (setdefaultKey d k1 v1) k = none := by
        rw [lookupKey_setdefaultKey_ne v1 (fun hh => hk hh.symm)]
        exact h
      rw [show lookupKey ((k1, v1) :: rest) k = lookupKey rest k by
        simp [lookupKey, hk]]
      exact ih _ h1

/-- Only the `base_dir` entry of the default template depends on the base
directory argument. -/
theorem lookupKey_cons (k1 : String) (v1 : JValue) (rest : List (String × JValue))
    (k : String) :
    lookupKey ((k1, v1) :: rest) k = if k1 = k then some v1 else lookupKey rest k :=
  rfl

theorem lookupKey_default_config_ne (b b' k : String) (h : k ≠ "base_dir") :
    lookupKey (default_config b) k = lookupKey (default_config b') k := by
  conv_lhs => rw [default_config, lookupKey_cons]
  conv_rhs => rw [default_config, lookupKey_cons]
  by_cases h1 : "app_name" = k
  · rw [if_pos h1, if_pos h1]
  · rw [if_neg h1, if_neg h1]
    conv_lhs => rw [lookupKey_cons]
    conv_rhs => rw [lookupKey_cons]
    rw [if_neg (fun hh => h hh.symm), if_neg (fun hh => h hh.symm)]

theorem loadReturns_ok {resolve : String → String} {script_dir : String}
    {writeOk : Bool} {cond : DiskCond} {X : List (String × JValue)}
    (h : load_or_create_config resolve script_dir writeOk cond = Except.ok X) :
    loadReturns resolve script_dir writeOk cond = true := by
  rw [loadReturns, h]

theorem loadedLookup_ok {resolve : String → String} {script_dir : String}
    {writeOk : Bool} {cond : DiskCond} {X : List (String × JValue)} (k : String)
    (h : load_or_create_config resolve script_dir writeOk cond = Except.ok X) :
    loadedLookup resolve script_dir writeOk cond k = lookupKey X k := by
  rw [loadedLookup, h]

/-- Counterexample to claim C3 as stated: a stored document with the relative
`base_dir` value `"projects"`, loaded in a session whose working directory is
`/cwd`, does not keep its stored value — `base_dir` is rewritten to the
resolved absolute path `/cwd/projects`. -/
theorem claim_C3_counterexample :
    loadedLookup (resolveModel "/cwd") "/app" true
      (DiskCond.parsed (JValue.jdict [("base_dir", JValue.jstr "projects")]))
      "base_dir" ≠ some (JValue.jstr "projects") := by
  have hload : load_or_create_config (resolveModel "/cwd") "/app" true
      (DiskCond.parsed (JValue.jdict [("base_dir", JValue.jstr "projects")]))
      = Except.ok (applyDefaults
          (default_config (resolveModel "/cwd" "projects"))
          (setKey [("base_dir", JValue.jstr "projects")] "base_dir"
            (JValue.jstr (resolveModel "/cwd" "projects")))) := rfl
  rw [loadedLookup_ok "base_dir" hload,
    lookupKey_applyDefaults_of_some _ _ (lookupKey_setKey_self _ _ _),
    show resolveModel "/cwd" "projects" = "/cwd/projects" from rfl]
  simp

/-- Claim C3 as amended: for a stored configuration object whose `base_dir`
value, if present, is a string, the load succeeds and returns a document that
contains every key of the default template; every present key other than
`base_dir` keeps its stored value (unknown extra keys included); every missing
key is filled with its default value; and `base_dir` itself is re-resolved to
an absolute path when present, or filled with the script directory when
absent. -/
theorem claim_C3_amended (resolve : String → String) (script_dir : String)
    (writeOk : Bool)
    (d : List (String × JValue)) (s kd kp km : String) (vp vm : JValue)
    (hbase : lookupKey d "base_dir" = some (JValue.jstr s)
      ∨ lookupKey d "base_dir" = none)
    (hkd : kd ∈ (default_config script_dir).map Prod.fst)
    (hkp : lookupKey d kp = some vp) (hkpne : kp ≠ "base_dir")
    (hkmne : km ≠ "base_dir") (hkm0 : lookupKey d km = none)
    (hkmd : lookupKey (default_config script_dir) km = some vm) :
    loadReturns resolve script_dir writeOk (DiskCond.parsed (JValue.jdict d)) = true
    ∧ (loadedLookup resolve script_dir writeOk (DiskCond.parsed (JValue.jdict d))
        kd).isSome = true
    ∧ loadedLookup resolve script_dir writeOk (DiskCond.parsed (JValue.jdict d)) kp
        = some vp
    ∧ loadedLookup resolve script_dir writeOk (DiskCond.parsed (JValue.jdict d)) km
        = some vm
    ∧ loadedLookup resolve script_dir writeOk (DiskCond.parsed (JValue.jdict d))
        "base_dir"
        = some (JValue.jstr (match lookupKey d "base_dir" with
            | some _ => resolve s
            | none => script_dir)) := by
  rcases hbase with hb | hb
  · have hload : load_or_create_config resolve script_dir writeOk
        (DiskCond.parsed (JValue.jdict d))
        = Except.ok (applyDefaults (default_config (resolve s))
            (setKey d "base_dir" (JValue.jstr (resolve s)))) := by
      simp only [load_or_create_config, migrate_config, hb]
    refine ⟨loadReturns_ok hload, ?_, ?_, ?_, ?_⟩
    · rw [loadedLookup_ok kd hload]
      have hkd' : kd ∈ (default_config (resolve s)).map Prod.fst := by
        have hkeys : (default_config (resolve s)).map Prod.fst
            = (default_config script_dir).map Prod.fst := rfl
        rw [hkeys]
        exact hkd
      exact isSome_applyDefaults_of_mem _ _ hkd'
    · rw [loadedLookup_ok kp hload]
      refine lookupKey_applyDefaults_of_some _ _ ?_
      rw [lookupKey_setKey_ne d _ (fun hh => hkpne hh.symm)]
      exact hkp
    · rw [loadedLookup_ok km hload]
      have h1 : lookupKey (setKey d "base_dir" (JValue.jstr (resolve s))) km
          = none := by
        rw [lookupKey_setKey_ne d _ (fun hh => hkmne hh.symm)]
        exact hkm0
      rw [lookupKey_applyDefaults_of_none _ _ h1,
        lookupKey_default_config_ne (resolve s) script_dir km hkmne]
      exact hkmd
    · rw [loadedLookup_ok "base_dir" hload, hb]
      exact lookupKey_applyDefaults_of_some _ _
        (lookupKey_setKey_self d "base_dir" (JValue.jstr (resolve s)))
  · have hload : load_or_create_config resolve script_dir writeOk
        (DiskCond.parsed (JValue.jdict d))
        = Except.ok (applyDefaults (default_config script_dir) d) := by
      simp only [load_or_create_config, migrate_config, hb]
    refine ⟨loadReturns_ok hload, ?_, ?_, ?_, ?_⟩
    · rw [loadedLookup_ok kd hload]
      exact isSome_applyDefaults_of_mem _ _ hkd
    · rw [loadedLookup_ok kp hload]
      exact lookupKey_applyDefaults_of_some _ _ hkp
    · rw [loadedLookup_ok km hload]
      rw [lookupKey_applyDefaults_of_none _ _ hkm0]
      exact hkmd
    · rw [loadedLookup_ok "base_dir" hload, hb]
      rw [lookupKey_applyDefaults_of_none _ _ hb]
      rfl

/-- Witness for the amended claim C3: a stored document with an absolute
`base_dir` and an unknown `extra` key; `units`/`recent_limit` are back-filled,
`extra` survives, `base_dir` stays its resolved self. -/
theorem claim_C3_amended_witness :
    loadReturns (resolveModel "/cwd") "/app" true
      (DiskCond.parsed (JValue.jdict
        [("base_dir", JValue.jstr "/data"), ("extra", JValue.jint 7)])) = true
    ∧ (loadedLookup (resolveModel "/cwd") "/app" true
        (DiskCond.parsed (JValue.jdict
          [("base_dir", JValue.jstr "/data"), ("extra", JValue.jint 7)]))
        "units").isSome = true
    ∧ loadedLookup (resolveModel "/cwd") "/app" true
        (DiskCond.parsed (JValue.jdict
          [("base_dir", JValue.jstr "/data"), ("extra", JValue.jint 7)]))
        "extra" = some (JValue.jint 7)
    ∧ loadedLookup (resolveModel "/cwd") "/app" true
        (DiskCond.parsed (JValue.jdict
          [("base_dir", JValue.jstr "/data"), ("extra", JValue.jint 7)]))
        "recent_limit" = some (JValue.jint 15)
    ∧ loadedLookup (resolveModel "/cwd") "/app" true
        (DiskCond.parsed (JValue.jdict
          [("base_dir", JValue.jstr "/data"), ("extra", JValue.jint 7)]))
        "base_dir"
        = some (JValue.jstr (match lookupKey
            [("base_dir", JValue.jstr "/data"), ("extra", JValue.jint 7)]
            "base_dir" with
          | some _ => resolveModel "/cwd" "/data"
          | none => "/app")) :=
  claim_C3_amended (resolveModel "/cwd") "/app" true
    [("base_dir", JValue.jstr "/data"), ("extra", JValue.jint 7)]
    "/data" "units" "extra" "recent_limit" (JValue.jint 7) (JValue.jint 15)
    (Or.inl rfl) (by decide) rfl (by decide) (by decide) rfl rfl

end Dashboard
